import Mathlib

/-!
Shallow embedding of the duplex real-time audio session of
`src/services/geminiService.ts` (class `LiveChatSession`) together with the
UI wrapper `src/components/ai/SupportChatbot.tsx`, and proofs of the
testable properties of the specification about it.

Times and durations are modelled as exact rationals (the source uses
JavaScript numbers; every arithmetic step performed on them here —
`max`, `+`, scaling by the power of two 32768 — is exact on the values
involved).  The external `decodeAudioData` helper (not part of the
sources) is abstracted: an inbound message carries either no audio, audio
that fails to decode, or audio that decodes to a buffer of a given
duration.
-/

namespace GeminiService

/-- Lifecycle of an `AudioContext` reference held by the session:
`absent` models a `null` reference, `opened` a live context, `closed`
a context after `close()` was called on it. -/
inductive CtxState
  | absent
  | opened
  | closed
deriving DecidableEq

/-- Effect of `ctx?.close()` on a context reference: a live context
becomes closed; a null or already-closed reference is unchanged. -/
def closeCtx : CtxState → CtxState
  | .opened => .closed
  | c => c

/-- One scheduled output buffer: an `AudioBufferSourceNode` as held in the
`audioSources` set, with the start time passed to `source.start` and the
duration of the decoded buffer. -/
structure PlaybackHandle where
  startTime : ℚ
  duration : ℚ
deriving DecidableEq

/-- Result of extracting and decoding the audio part of an inbound
message (`message.serverContent?.modelTurn?.parts[0]?.inlineData.data`
followed by the external `decodeAudioData`): the message may carry no
audio, audio that fails to decode, or audio decoding to a buffer of the
given duration in seconds. -/
inductive AudioPayload
  | absent
  | failing
  | decodes (duration : ℚ)
deriving DecidableEq

/-- An inbound transport message as seen by the `onmessage` callback. -/
structure ServerMessage where
  audio : AudioPayload
  interrupted : Bool
deriving DecidableEq

/-- State of a `LiveChatSession` object.  `sessionPromise` records whether
the promise field is non-null (a connect is in flight or established);
`nextStartTime` is the schedule cursor; `audioSources` is the set of live
source nodes in insertion order.  The two acquisition counters record how
many times the microphone (`getUserMedia` plus input context creation in
`onopen`) and the output device (output context creation in `connect`)
have been acquired; they let acquisition-counting properties be stated. -/
structure Session where
  sessionPromise : Bool
  inputAudioContext : CtxState
  outputAudioContext : CtxState
  nextStartTime : ℚ
  audioSources : List PlaybackHandle
  micAcquisitions : ℕ
  outputAcquisitions : ℕ
deriving DecidableEq

/-- A freshly constructed `LiveChatSession`. -/
def initialSession : Session :=
  { sessionPromise := false
    inputAudioContext := .absent
    outputAudioContext := .absent
    nextStartTime := 0
    audioSources := []
    micAcquisitions := 0
    outputAcquisitions := 0 }

/-- Model of `LiveChatSession.connect`.  `aiConfigured` is whether the module-level
`ai` client exists (the API key was configured at module load).  The
second component is `some msg` when the call throws `Error(msg)`; the
throw happens before any mutation, so the state is returned unchanged in
that case.  When a session promise already exists the method returns
immediately without touching anything.  Otherwise it creates the output
audio context and then installs the session promise (opens the
transport). -/
def connect (aiConfigured : Bool) (s : Session) : Session × Option String :=
  if ¬ aiConfigured then (s, some ("API key not configured."))
  else if s.sessionPromise then (s, none)
  else
    ({ s with
        outputAudioContext := .opened
        outputAcquisitions := s.outputAcquisitions + 1
        sessionPromise := true }, none)

/-- The `onopen` transport callback: creates the input audio context and
acquires the microphone via `getUserMedia`, then starts the script
processor (capture pipeline). -/
def onopenEvent (s : Session) : Session :=
  { s with
      inputAudioContext := .opened
      micAcquisitions := s.micAcquisitions + 1 }

/-- Model of `LiveChatSession.handleAudio`.  Returns the updated session and the
playback handle scheduled for this message, if any.  Mirrors the source:
early return when the output context reference is null; otherwise, when
the message carries audio, the cursor is first bumped to
`max nextStartTime currentTime` (this happens before the decode, so it
persists even when decoding fails), and on a successful decode a source
node is started at the bumped cursor, the cursor advances by the duration of the
buffer, and the node is added to `audioSources`. -/
def handleAudio (s : Session) (now : ℚ) (msg : ServerMessage) :
    Session × Option PlaybackHandle :=
  if s.outputAudioContext = .absent then (s, none)
  else
    match msg.audio with
    | .absent => (s, none)
    | .failing => ({ s with nextStartTime := max s.nextStartTime now }, none)
    | .decodes d =>
        let start := max s.nextStartTime now
        ({ s with
            nextStartTime := start + d
            audioSources := s.audioSources ++ [⟨start, d⟩] }, some ⟨start, d⟩)

/-- Model of `LiveChatSession.interruptAudio`: stop every live source node, remove
them all from the set, and reset the schedule cursor to 0. -/
def interruptAudio (s : Session) : Session :=
  { s with audioSources := [], nextStartTime := 0 }

/-- The `onmessage` transport callback: forwards the message to the
caller, runs `handleAudio`, and then, if the message carries the
`interrupted` flag, runs `interruptAudio`. -/
def onmessageEvent (s : Session) (now : ℚ) (msg : ServerMessage) :
    Session × Option PlaybackHandle :=
  let step := handleAudio s now msg
  if msg.interrupted then (interruptAudio step.1, step.2) else step

/-- The `onerror` transport callback: the session installs the onError callback of the
caller directly (`onerror: onError`), so the session state is
untouched and the error is merely reported to the caller; the boolean
records that the error callback of the caller was invoked. -/
def onerrorEvent (s : Session) : Session × Bool := (s, true)

/-- The `ended` listener of a scheduled source node: on natural completion
the node removes itself from `audioSources`. -/
def sourceEnded (s : Session) (h : PlaybackHandle) : Session :=
  { s with audioSources := s.audioSources.erase h }

/-- Model of `LiveChatSession.disconnect`: close the live session, close both audio
contexts (optional chaining — a null reference is skipped), null out the
session promise, and run `interruptAudio`. -/
def disconnect (s : Session) : Session :=
  interruptAudio
    { s with
        sessionPromise := false
        inputAudioContext := closeCtx s.inputAudioContext
        outputAudioContext := closeCtx s.outputAudioContext }

/-- The `SupportChatbot.connect` wrapper: when microphone permission is
granted it first performs its own `getUserMedia` probe (one extra
microphone acquisition at the application level, counted by the third
component) and then delegates to `LiveChatSession.connect`, catching any
thrown error; when permission is denied the session connect is never
reached. -/
def chatbotConnect (aiConfigured micGranted : Bool) (s : Session) :
    Session × Option String × ℕ :=
  if micGranted then
    let step := connect aiConfigured s
    (step.1, step.2, 1)
  else (s, none, 0)

/-- A message carrying audio that decodes to duration `d`, with no
interruption flag. -/
def audioMsg (d : ℚ) : ServerMessage := ⟨.decodes d, false⟩

/-- Deliver a list of timed messages to the session in order, collecting
the playback handles scheduled along the way. -/
def runMessages (s : Session) : List (ℚ × ServerMessage) → Session × List PlaybackHandle
  | [] => (s, [])
  | (now, m) :: rest =>
      let step := onmessageEvent s now m
      let tail := runMessages step.1 rest
      (tail.1, step.2.toList ++ tail.2)

/-- Deliver a sequence of audio payloads, each given as a pair of the
device-clock time at which it is handled and the duration it decodes to,
with no interruption in between. -/
def runAudio (s : Session) (evs : List (ℚ × ℚ)) : Session × List PlaybackHandle :=
  runMessages s (evs.map fun p => (p.1, audioMsg p.2))

/-- The start times of the buffers scheduled for a sequence of audio
payloads. -/
def startsOf (s : Session) (evs : List (ℚ × ℚ)) : List ℚ :=
  ((runAudio s evs).2).map PlaybackHandle.startTime

/-- Truncation toward zero on rationals: the integer-conversion step of
the ECMAScript `ToInt16` operation applied when a number is stored into
an `Int16Array` slot. -/
def jsTrunc (x : ℚ) : ℤ := if 0 ≤ x then ⌊x⌋ else ⌈x⌉

/-- Wrap an integer into the signed 16-bit range the way twos-complement
storage does: reduce modulo 2^16 and reinterpret values of 2^15 and above
as negative. -/
def wrap16 (i : ℤ) : ℤ :=
  if i % 65536 < 32768 then i % 65536 else i % 65536 - 65536

/-- ECMAScript `ToInt16`: truncate toward zero, then wrap into the signed
16-bit range.  This is what `int16[i] = v` performs on a number `v`. -/
def toInt16 (x : ℚ) : ℤ := wrap16 (jsTrunc x)

/-- The two bytes of a signed 16-bit value as `new Uint8Array(int16.buffer)`
exposes them, little-endian. -/
def int16BytesLE (v : ℤ) : List ℕ :=
  [(v % 65536).toNat % 256, (v % 65536).toNat / 256]

/-- The wire payload produced from a block of captured samples: the raw
bytes and the mime tag. -/
structure PcmBlob where
  data : List ℕ
  mimeType : String
deriving DecidableEq

/-- The byte content produced by `createPcmBlob` for a block of samples:
each sample is scaled by 32768, stored into an `Int16Array` slot
(ECMAScript `ToInt16`), and the bytes of the backing buffer are exposed
little-endian. -/
def pcmBytes (block : List ℚ) : List ℕ :=
  (block.map fun x => int16BytesLE (toInt16 (x * 32768))).flatten

/-- Model of `LiveChatSession.createPcmBlob`: the encoded chunk for one captured
block.  (The source additionally base64-encodes these bytes with the
external `encode` helper before transmission; the payload bytes
themselves are what is modelled.) -/
def createPcmBlob (block : List ℚ) : PcmBlob :=
  { data := pcmBytes block
    mimeType := "audio/pcm;rate=16000" }

/-- A session that completed `connect` (with the API key configured) and
whose transport has fired `onopen`: both devices acquired, promise live,
cursor at 0, no sources. -/
def connectedSession : Session := onopenEvent (connect true initialSession).1

/-- Closing a context reference never leaves it in the open state. -/
theorem closeCtx_ne_opened (c : CtxState) : closeCtx c ≠ CtxState.opened := by
  cases c <;> simp [closeCtx]

/-- Closing a context reference twice is the same as closing it once. -/
theorem closeCtx_idem (c : CtxState) : closeCtx (closeCtx c) = closeCtx c := by
  cases c <;> rfl

/-- Handling an audio message never changes the output context reference. -/
theorem handleAudio_outputCtx (s : Session) (now : ℚ) (m : ServerMessage) :
    (handleAudio s now m).1.outputAudioContext = s.outputAudioContext := by
  unfold handleAudio
  rcases m with ⟨a, i⟩
  cases a <;> dsimp <;> split <;> rfl

/-- C1: for every inbound payload whose audio decodes, the scheduled buffer receives start time `max (ScheduleCursor, deviceClockNow)` at the moment of scheduling, and immediately afterwards the cursor equals that start time plus the duration of the decoded buffer. -/
theorem C1_schedule_rule (s : Session) (now d : ℚ) (m : ServerMessage)
    (hctx : s.outputAudioContext ≠ CtxState.absent) (haudio : m.audio = .decodes d) :
    (handleAudio s now m).2 = some ⟨max s.nextStartTime now, d⟩ ∧
    (handleAudio s now m).1.nextStartTime = max s.nextStartTime now + d := by
  unfold handleAudio
  rw [if_neg hctx, haudio]
  exact ⟨rfl, rfl⟩

/-- Witness for C1 at the freshly connected session, device time 2 and a buffer of duration 3. -/
theorem C1_witness :
    connectedSession.outputAudioContext ≠ CtxState.absent ∧
    (handleAudio connectedSession 2 ⟨AudioPayload.decodes 3, false⟩).2 =
      some ⟨max connectedSession.nextStartTime 2, 3⟩ ∧
    (handleAudio connectedSession 2 ⟨AudioPayload.decodes 3, false⟩).1.nextStartTime =
      max connectedSession.nextStartTime 2 + 3 := by
  refine ⟨by simp [connectedSession, onopenEvent, connect, initialSession], ?_, ?_⟩
  · exact (C1_schedule_rule connectedSession 2 3 _
      (by simp [connectedSession, onopenEvent, connect, initialSession]) rfl).1
  · exact (C1_schedule_rule connectedSession 2 3 _
      (by simp [connectedSession, onopenEvent, connect, initialSession]) rfl).2

/-- C2: immediately after a message carrying the interrupted signal is processed, the live-handle set is empty and the schedule cursor is 0, so any buffer scheduled next, at a nonnegative device time, starts exactly at that device time rather than after what was previously queued. -/
theorem C2_interruption_flush (s : Session) (now : ℚ) (m : ServerMessage)
    (hctx : s.outputAudioContext ≠ CtxState.absent) (hint : m.interrupted = true) :
    (onmessageEvent s now m).1.audioSources = [] ∧
    (onmessageEvent s now m).1.nextStartTime = 0 ∧
    ∀ now' d : ℚ, 0 ≤ now' →
      (handleAudio (onmessageEvent s now m).1 now' ⟨AudioPayload.decodes d, false⟩).2 =
        some ⟨now', d⟩ := by
  have hout : (onmessageEvent s now m).1.outputAudioContext = s.outputAudioContext := by
    unfold onmessageEvent
    rw [hint]
    simpa [interruptAudio] using handleAudio_outputCtx s now m
  have hsrc : (onmessageEvent s now m).1.audioSources = [] := by
    unfold onmessageEvent; rw [hint]; rfl
  have hcur : (onmessageEvent s now m).1.nextStartTime = 0 := by
    unfold onmessageEvent; rw [hint]; rfl
  refine ⟨hsrc, hcur, fun now' d h0 => ?_⟩
  unfold handleAudio
  rw [if_neg (by rw [hout]; exact hctx)]
  dsimp
  rw [hcur, max_eq_right h0]

/-- Witness for C2: an interrupting message at device time 1 on the connected session, followed by a buffer scheduled at device time 3. -/
theorem C2_witness :
    connectedSession.outputAudioContext ≠ CtxState.absent ∧
    (onmessageEvent connectedSession 1 ⟨AudioPayload.decodes 2, true⟩).1.audioSources = [] ∧
    (onmessageEvent connectedSession 1 ⟨AudioPayload.decodes 2, true⟩).1.nextStartTime = 0 ∧
    (handleAudio (onmessageEvent connectedSession 1 ⟨AudioPayload.decodes 2, true⟩).1 3
        ⟨AudioPayload.decodes 2, false⟩).2 = some ⟨3, 2⟩ := by
  have hctx : connectedSession.outputAudioContext ≠ CtxState.absent := by
    simp [connectedSession, onopenEvent, connect, initialSession]
  have main := C2_interruption_flush connectedSession 1 ⟨AudioPayload.decodes 2, true⟩ hctx rfl
  exact ⟨hctx, main.1, main.2.1, main.2.2 3 2 (by norm_num)⟩

/-- C5: disconnect, invoked on any session state whatsoever, leaves no session promise, an empty live-handle set, a reset cursor, and neither audio context open, and calling it a second time changes nothing. -/
theorem C5_disconnect_safety (s : Session) :
    (disconnect s).sessionPromise = false ∧
    (disconnect s).audioSources = [] ∧
    (disconnect s).nextStartTime = 0 ∧
    (disconnect s).inputAudioContext ≠ CtxState.opened ∧
    (disconnect s).outputAudioContext ≠ CtxState.opened ∧
    disconnect (disconnect s) = disconnect s := by
  refine ⟨rfl, rfl, rfl, ?_, ?_, ?_⟩
  · exact closeCtx_ne_opened s.inputAudioContext
  · exact closeCtx_ne_opened s.outputAudioContext
  · simp [disconnect, interruptAudio, closeCtx_idem]

/-- C9: calling connect while a session promise already exists is a no-op: the state, including both contexts, both acquisition counters and the promise, is returned unchanged, and no error is surfaced. -/
theorem C9_connect_in_flight (ai : Bool) (s : Session)
    (hai : ai = true) (h : s.sessionPromise = true) :
    connect ai s = (s, none) := by
  simp [connect, hai, h]

/-- Witness for C9 at the connected session, whose session promise is live. -/
theorem C9_witness :
    connectedSession.sessionPromise = true ∧
    connect true connectedSession = (connectedSession, none) := by
  have h : connectedSession.sessionPromise = true := by
    simp [connectedSession, onopenEvent, connect, initialSession]
  exact ⟨h, C9_connect_in_flight true connectedSession rfl h⟩

/-- C10: when the module-level AI client was not configured, connect throws with the exact message and the state is returned completely untouched: no output context is created and no session promise is set. -/
theorem C10_no_api_key (s : Session) :
    connect false s = (s, some ("API key not configured.")) := by
  simp [connect]

/-- C6 (amended): a transport error is reported to the caller via the error callback, but the session itself performs no teardown — its state is unchanged — and its resources are only released by a subsequent disconnect. -/
theorem C6_error_no_teardown (s : Session) :
    (onerrorEvent s).2 = true ∧
    (onerrorEvent s).1 = s ∧
    (disconnect (onerrorEvent s).1).inputAudioContext ≠ CtxState.opened ∧
    (disconnect (onerrorEvent s).1).outputAudioContext ≠ CtxState.opened ∧
    (disconnect (onerrorEvent s).1).sessionPromise = false :=
  ⟨rfl, rfl, closeCtx_ne_opened _, closeCtx_ne_opened _, rfl⟩

/-- C6 counterexample: after a successful connect and open, the error event reports the error to the caller but leaves the input context open, the output context open and the session promise set — the resources owned by the session are not released on the transition to the error state, contradicting the claim. -/
theorem C6_counterexample :
    (onerrorEvent connectedSession).2 = true ∧
    (onerrorEvent connectedSession).1.inputAudioContext = CtxState.opened ∧
    (onerrorEvent connectedSession).1.outputAudioContext = CtxState.opened ∧
    (onerrorEvent connectedSession).1.sessionPromise = true := by
  simp [onerrorEvent, connectedSession, onopenEvent, connect, initialSession]

/-- C7 (amended): each successful connect performs exactly one microphone acquisition (in the open callback) and exactly one output-device acquisition; the chatbot wrapper performs one additional probe acquisition of the microphone; disconnect releases both contexts and the session promise; the error event releases nothing. -/
theorem C7_acquisitions (s : Session) (h : s.sessionPromise = false) :
    (onopenEvent (connect true s).1).micAcquisitions = s.micAcquisitions + 1 ∧
    (onopenEvent (connect true s).1).outputAcquisitions = s.outputAcquisitions + 1 ∧
    (chatbotConnect true true s).2.2 = 1 ∧
    (∀ t : Session, (disconnect t).inputAudioContext ≠ CtxState.opened ∧
        (disconnect t).outputAudioContext ≠ CtxState.opened ∧
        (disconnect t).sessionPromise = false) ∧
    (onerrorEvent (onopenEvent (connect true s).1)).1 = onopenEvent (connect true s).1 := by
  refine ⟨?_, ?_, rfl, fun t => ⟨closeCtx_ne_opened _, closeCtx_ne_opened _, rfl⟩, rfl⟩
  · simp [connect, h, onopenEvent]
  · simp [connect, h, onopenEvent]

/-- Witness for C7 starting from the fresh session. -/
theorem C7_witness :
    initialSession.sessionPromise = false ∧
    (onopenEvent (connect true initialSession).1).micAcquisitions =
      initialSession.micAcquisitions + 1 ∧
    (onopenEvent (connect true initialSession).1).outputAcquisitions =
      initialSession.outputAcquisitions + 1 := by
  have main := C7_acquisitions initialSession rfl
  exact ⟨rfl, main.1, main.2.1⟩

/-- C7 counterexample: in the errored state reached after one successful connect, both acquisition counters equal one, yet the two contexts are still open — the devices are not released on the Error transition, contradicting the claim that both are released on any terminal transition. -/
theorem C7_counterexample :
    (onerrorEvent connectedSession).1.micAcquisitions = 1 ∧
    (onerrorEvent connectedSession).1.outputAcquisitions = 1 ∧
    ¬ ((onerrorEvent connectedSession).1.inputAudioContext ≠ CtxState.opened ∧
       (onerrorEvent connectedSession).1.outputAudioContext ≠ CtxState.opened) := by
  simp [onerrorEvent, connectedSession, onopenEvent, connect, initialSession]

/-- C8 (amended): a payload that fails to decode schedules nothing, leaves the live-handle set, the session promise and the input context untouched, and terminates nothing — but the cursor has already been bumped to `max (cursor, deviceClockNow)` before the decode; under a monotone clock this bump never changes the start time assigned to any later buffer. -/
theorem C8_decode_failure (s : Session) (now : ℚ) (m : ServerMessage)
    (hctx : s.outputAudioContext ≠ CtxState.absent) (hfail : m.audio = .failing) :
    (handleAudio s now m).2 = none ∧
    (handleAudio s now m).1.audioSources = s.audioSources ∧
    (handleAudio s now m).1.sessionPromise = s.sessionPromise ∧
    (handleAudio s now m).1.inputAudioContext = s.inputAudioContext ∧
    (handleAudio s now m).1.nextStartTime = max s.nextStartTime now ∧
    ∀ now' d : ℚ, now ≤ now' →
      (handleAudio (handleAudio s now m).1 now' ⟨AudioPayload.decodes d, false⟩).2 =
        (handleAudio s now' ⟨AudioPayload.decodes d, false⟩).2 := by
  unfold handleAudio
  rw [if_neg hctx, hfail]
  refine ⟨rfl, rfl, rfl, rfl, rfl, fun now' d h => ?_⟩
  have hmax : max (max s.nextStartTime now) now' = max s.nextStartTime now' := by
    rw [max_assoc, max_eq_right h]
  dsimp
  simp only [if_neg hctx]
  rw [hmax]

/-- Witness for C8: a failing payload at device time 1 on the connected session, followed by a successful one at device time 2. -/
theorem C8_witness :
    connectedSession.outputAudioContext ≠ CtxState.absent ∧
    (handleAudio connectedSession 1 ⟨AudioPayload.failing, false⟩).2 = none ∧
    (handleAudio connectedSession 1 ⟨AudioPayload.failing, false⟩).1.audioSources =
      connectedSession.audioSources ∧
    (handleAudio connectedSession 1 ⟨AudioPayload.failing, false⟩).1.sessionPromise =
      connectedSession.sessionPromise ∧
    (handleAudio connectedSession 1 ⟨AudioPayload.failing, false⟩).1.nextStartTime =
      max connectedSession.nextStartTime 1 ∧
    (handleAudio (handleAudio connectedSession 1 ⟨AudioPayload.failing, false⟩).1 2
        ⟨AudioPayload.decodes 3, false⟩).2 =
      (handleAudio connectedSession 2 ⟨AudioPayload.decodes 3, false⟩).2 := by
  have hctx : connectedSession.outputAudioContext ≠ CtxState.absent := by
    simp [connectedSession, onopenEvent, connect, initialSession]
  have main := C8_decode_failure connectedSession 1 ⟨AudioPayload.failing, false⟩ hctx rfl
  exact ⟨hctx, main.1, main.2.1, main.2.2.1, main.2.2.2.2.1,
    main.2.2.2.2.2 2 3 (by norm_num)⟩

/-- C8 counterexample: with the cursor at 0, a payload failing to decode handled at device time 5 is dropped (nothing scheduled) yet leaves the cursor at 5 — the cursor advanced, contradicting the claim that a dropped payload does not advance the ScheduleCursor. -/
theorem C8_counterexample :
    connectedSession.nextStartTime = 0 ∧
    (handleAudio connectedSession 5 ⟨AudioPayload.failing, false⟩).2 = none ∧
    (handleAudio connectedSession 5 ⟨AudioPayload.failing, false⟩).1.nextStartTime = 5 ∧
    (5 : ℚ) ≠ 0 := by
  refine ⟨by simp [connectedSession, onopenEvent, connect, initialSession], ?_, ?_, by norm_num⟩
  · simp [handleAudio, connectedSession, onopenEvent, connect, initialSession]
  · simp +decide [handleAudio, connectedSession, onopenEvent, connect, initialSession, max_def]

/-- C4 counterexample: on the connected session, two payloads of duration 1 handled at device times 0 and 5 receive start times 0 and 5; the second start time is not the first start time plus the first duration, contradicting the claimed unconditional equality. -/
theorem C4_counterexample :
    startsOf connectedSession [(0, 1), (5, 1)] = [0, 5] ∧ (5 : ℚ) ≠ 0 + 1 := by
  constructor
  · simp +decide [startsOf, runAudio, runMessages, onmessageEvent, handleAudio, audioMsg,
      connectedSession, onopenEvent, connect, initialSession, max_def]
  · norm_num



/-- No messages schedule no buffers. -/
theorem startsOf_nil (s : Session) : startsOf s [] = [] := rfl

/-- Explicit form of one scheduling step for a decodable payload. -/
theorem handleAudio_decodes (s : Session) (now d : ℚ)
    (hctx : s.outputAudioContext ≠ CtxState.absent) :
    handleAudio s now ⟨AudioPayload.decodes d, false⟩ =
      ({ s with
          nextStartTime := max s.nextStartTime now + d
          audioSources := s.audioSources ++ [⟨max s.nextStartTime now, d⟩] },
        some ⟨max s.nextStartTime now, d⟩) := by
  unfold handleAudio
  rw [if_neg hctx]

/-- Unfolding of the start-time list over one scheduling step. -/
theorem startsOf_cons (s : Session) (now d : ℚ) (evs : List (ℚ × ℚ))
    (hctx : s.outputAudioContext ≠ CtxState.absent) :
    startsOf s ((now, d) :: evs) =
      max s.nextStartTime now ::
        startsOf { s with
            nextStartTime := max s.nextStartTime now + d
            audioSources := s.audioSources ++ [⟨max s.nextStartTime now, d⟩] } evs := by
  unfold startsOf runAudio
  rw [List.map_cons]
  rw [runMessages]
  simp [onmessageEvent, handleAudio_decodes s now d hctx, audioMsg]

/-- Start times are non-decreasing when all durations are nonnegative, and they never precede the incoming cursor. -/
theorem startsOf_chain_le (evs : List (ℚ × ℚ)) : ∀ (s : Session),
    s.outputAudioContext ≠ CtxState.absent → (∀ p ∈ evs, 0 ≤ p.2) →
    List.Chain' (· ≤ ·) (startsOf s evs) ∧
    ∀ t ∈ (startsOf s evs).head?, s.nextStartTime ≤ t := by
  induction evs with
  | nil => exact fun s _ _ => ⟨List.chain'_nil, by simp [startsOf_nil]⟩
  | cons p rest ih =>
    rcases p with ⟨now, d⟩
    intro s hctx hd
    have hd0 : 0 ≤ d := hd (now, d) (List.mem_cons_self _ _)
    have ihh := ih { s with
        nextStartTime := max s.nextStartTime now + d
        audioSources := s.audioSources ++ [⟨max s.nextStartTime now, d⟩] }
      hctx (fun q hq => hd q (List.mem_cons_of_mem _ hq))
    rw [startsOf_cons s now d rest hctx]
    refine ⟨List.chain'_cons'.mpr ⟨fun y hy => ?_, ihh.1⟩, fun t ht => ?_⟩
    · have hy' := ihh.2 y hy
      have : max s.nextStartTime now ≤ max s.nextStartTime now + d := by linarith
      exact this.trans hy'
    · simp only [List.head?_cons, Option.mem_def, Option.some.injEq] at ht
      subst ht
      exact le_max_left _ _

/-- Between adjacent scheduled buffers, whenever the later one arrives no later than the previous start plus the previous duration, its start time is exactly that sum. -/
theorem startsOf_adjacent (evs : List (ℚ × ℚ)) : ∀ (s : Session),
    s.outputAudioContext ≠ CtxState.absent →
    List.Chain' (fun p q => q.1.1 ≤ p.2 + p.1.2 → q.2 = p.2 + p.1.2)
      (evs.zip (startsOf s evs)) := by
  induction evs with
  | nil => exact fun s _ => by simp [startsOf_nil]
  | cons p rest ih =>
    rcases p with ⟨n1, d1⟩
    intro s hctx
    rw [startsOf_cons s n1 d1 rest hctx]
    cases rest with
    | nil => simp [startsOf_nil]
    | cons q rest2 =>
      rcases q with ⟨n2, d2⟩
      have ihh := ih { s with
          nextStartTime := max s.nextStartTime n1 + d1
          audioSources := s.audioSources ++ [⟨max s.nextStartTime n1, d1⟩] } hctx
      rw [startsOf_cons { s with
          nextStartTime := max s.nextStartTime n1 + d1
          audioSources := s.audioSources ++ [⟨max s.nextStartTime n1, d1⟩] }
        n2 d2 rest2 hctx] at ihh ⊢
      rw [List.zip_cons_cons]
      refine List.chain'_cons.mpr ⟨fun hle => ?_, ?_⟩
      · exact max_eq_left hle
      · exact ihh

/-- With the cursor at 0, the first buffer starts exactly at the device time of its arrival. -/
theorem startsOf_head (s : Session) (now d : ℚ) (evs : List (ℚ × ℚ))
    (hctx : s.outputAudioContext ≠ CtxState.absent)
    (h0 : s.nextStartTime = 0) (hnow : 0 ≤ now) :
    (startsOf s ((now, d) :: evs)).head? = some now := by
  rw [startsOf_cons s now d evs hctx, h0]
  simp [max_eq_right hnow]

/-- C4 (amended): for any sequence of payloads before any interruption, successive start times are non-decreasing (for nonnegative durations); the i-th start time equals the previous start time plus the previous duration whenever the i-th payload is handled at a device time not exceeding that sum (otherwise the code starts it at the device time instead); and with a reset cursor the first buffer starts at the device clock time. -/
theorem C4_schedule_monotonicity (s : Session) (evs : List (ℚ × ℚ))
    (hctx : s.outputAudioContext ≠ CtxState.absent) :
    ((∀ p ∈ evs, 0 ≤ p.2) → List.Chain' (· ≤ ·) (startsOf s evs)) ∧
    List.Chain' (fun p q => q.1.1 ≤ p.2 + p.1.2 → q.2 = p.2 + p.1.2)
      (evs.zip (startsOf s evs)) ∧
    ∀ now d rest, evs = (now, d) :: rest → s.nextStartTime = 0 → 0 ≤ now →
      (startsOf s evs).head? = some now := by
  refine ⟨fun hd => (startsOf_chain_le evs s hctx hd).1, startsOf_adjacent evs s hctx,
    fun now d rest hevs h0 hnow => ?_⟩
  subst hevs
  exact startsOf_head s now d rest hctx h0 hnow

/-- Witness for C4 on the connected session with two back-to-back half-second payloads. -/
theorem C4_witness :
    connectedSession.outputAudioContext ≠ CtxState.absent ∧
    List.Chain' (· ≤ ·) (startsOf connectedSession [(0, 1/2), (1/4, 1/2)]) ∧
    List.Chain' (fun p q => q.1.1 ≤ p.2 + p.1.2 → q.2 = p.2 + p.1.2)
      (([(0, 1/2), (1/4, 1/2)] : List (ℚ × ℚ)).zip
        (startsOf connectedSession [(0, 1/2), (1/4, 1/2)])) ∧
    (startsOf connectedSession [(0, 1/2), (1/4, 1/2)]).head? = some 0 := by
  have hctx : connectedSession.outputAudioContext ≠ CtxState.absent := by
    simp [connectedSession, onopenEvent, connect, initialSession]
  have main := C4_schedule_monotonicity connectedSession [(0, 1/2), (1/4, 1/2)] hctx
  refine ⟨hctx, main.1 ?_, main.2.1, main.2.2 0 (1/2) [(1/4, 1/2)] rfl ?_ le_rfl⟩
  · intro p hp
    simp only [List.mem_cons, List.not_mem_nil, or_false] at hp
    rcases hp with rfl | rfl <;> norm_num
  · simp [connectedSession, onopenEvent, connect, initialSession]

/-- Each sample contributes exactly two bytes to the encoded chunk. -/
theorem pcmBytes_length (block : List ℚ) : (pcmBytes block).length = 2 * block.length := by
  induction block with
  | nil => rfl
  | cons a l ih =>
    simp only [pcmBytes, List.map_cons, List.flatten_cons, List.length_append,
      List.length_cons]
    simp only [pcmBytes] at ih
    rw [ih]
    simp only [int16BytesLE, List.length_cons, List.length_nil]
    omega

/-- Truncation toward zero moves a rational by strictly less than one. -/
theorem abs_sub_jsTrunc_lt_one (y : ℚ) : |y - (jsTrunc y : ℚ)| < 1 := by
  unfold jsTrunc
  split
  · rw [abs_lt]
    constructor
    · have := Int.floor_le y
      linarith
    · have := Int.sub_one_lt_floor y
      linarith
  · rw [abs_lt]
    constructor
    · have := Int.ceil_lt_add_one y
      linarith
    · have := Int.le_ceil y
      linarith

/-- Truncation keeps a value of the scaled range inside the signed 16-bit range. -/
theorem jsTrunc_range (y : ℚ) (h1 : -32768 ≤ y) (h2 : y < 32768) :
    -32768 ≤ jsTrunc y ∧ jsTrunc y < 32768 := by
  unfold jsTrunc
  split
  case isTrue h =>
    constructor
    · have h0 : (0 : ℤ) ≤ ⌊y⌋ := Int.le_floor.mpr (by exact_mod_cast h)
      omega
    · exact Int.floor_lt.mpr (by exact_mod_cast h2)
  case isFalse h =>
    constructor
    · have hc := Int.le_ceil y
      have : (-32768 : ℚ) ≤ (⌈y⌉ : ℚ) := le_trans h1 hc
      exact_mod_cast this
    · have hy : y ≤ ((0 : ℤ) : ℚ) := by
        push_cast
        exact le_of_lt (not_le.mp h)
      have := Int.ceil_le.mpr hy
      omega

/-- Wrapping is the identity on values already in the signed 16-bit range. -/
theorem wrap16_eq_self (i : ℤ) (h1 : -32768 ≤ i) (h2 : i < 32768) : wrap16 i = i := by
  unfold wrap16
  split <;> omega

/-- Inverse scaling recovers every sample of the half-open range within 1/32768. -/
theorem pcm_roundtrip (x : ℚ) (h1 : -1 ≤ x) (h2 : x < 1) :
    |x - (toInt16 (x * 32768) : ℚ) / 32768| < 1 / 32768 := by
  have hy1 : (-32768 : ℚ) ≤ x * 32768 := by linarith
  have hy2 : x * 32768 < 32768 := by linarith
  obtain ⟨hr1, hr2⟩ := jsTrunc_range (x * 32768) hy1 hy2
  have htr : toInt16 (x * 32768) = jsTrunc (x * 32768) := wrap16_eq_self _ hr1 hr2
  rw [htr]
  have habs := abs_sub_jsTrunc_lt_one (x * 32768)
  have key : x - (jsTrunc (x * 32768) : ℚ) / 32768 =
      (x * 32768 - (jsTrunc (x * 32768) : ℚ)) / 32768 := by ring
  rw [key, abs_div, abs_of_pos (by norm_num : (0 : ℚ) < 32768)]
  exact (div_lt_div_iff_of_pos_right (by norm_num : (0 : ℚ) < 32768)).mpr habs

/-- C3 (amended): the encoded chunk of a block of N samples has byte length exactly 2N; inverse scaling recovers every sample in [-1, 1) — the right endpoint excluded, since 1.0 wraps — within 1/32768 of the original; and a block of 4096 samples all equal to 0.5 yields an 8192-byte little-endian chunk in which every 16-bit value equals 16384. -/
theorem C3_encoding (block : List ℚ) :
    (createPcmBlob block).data.length = 2 * block.length ∧
    (∀ x : ℚ, -1 ≤ x → x < 1 →
      |x - (toInt16 (x * 32768) : ℚ) / 32768| < 1 / 32768) ∧
    (createPcmBlob (List.replicate 4096 (1/2))).data =
      (List.replicate 4096 [0, 64]).flatten ∧
    (createPcmBlob (List.replicate 4096 (1/2))).data.length = 8192 ∧
    (List.replicate 4096 ((1 : ℚ)/2)).map (fun x => toInt16 (x * 32768)) =
      List.replicate 4096 16384 := by
  have hval : toInt16 ((1 : ℚ)/2 * 32768) = 16384 := by
    norm_num [toInt16, jsTrunc, wrap16]
  have hbytes : int16BytesLE (toInt16 ((1 : ℚ)/2 * 32768)) = [0, 64] := by
    rw [hval]; decide
  refine ⟨pcmBytes_length block, pcm_roundtrip, ?_, ?_, ?_⟩
  · show pcmBytes (List.replicate 4096 (1/2)) = _
    unfold pcmBytes
    rw [List.map_replicate, hbytes]
  · show (pcmBytes (List.replicate 4096 (1/2))).length = 8192
    rw [pcmBytes_length, List.length_replicate]
  · rw [List.map_replicate, hval]

/-- C3 counterexample: the sample 1.0 lies inside the claimed in-range interval [-1.0, 1.0], yet it is encoded as -32768, inverse scaling returns -1.0, and the round-trip error is 2, not within 1/32768 — contradicting the claim for in-range samples. -/
theorem C3_counterexample :
    ((-1 : ℚ) ≤ 1 ∧ (1 : ℚ) ≤ 1) ∧
    toInt16 ((1 : ℚ) * 32768) = -32768 ∧
    (toInt16 ((1 : ℚ) * 32768) : ℚ) / 32768 = -1 ∧
    ¬ |(1 : ℚ) - (toInt16 ((1 : ℚ) * 32768) : ℚ) / 32768| ≤ 1 / 32768 := by
  have hval : toInt16 ((1 : ℚ) * 32768) = -32768 := by
    norm_num [toInt16, jsTrunc, wrap16]
  refine ⟨⟨by norm_num, le_refl 1⟩, hval, ?_, ?_⟩
  · rw [hval]; norm_num
  · rw [hval]
    rw [show ((-32768 : ℤ) : ℚ) = -32768 by push_cast; ring]
    rw [show (1 : ℚ) - (-32768 : ℚ) / 32768 = 2 by norm_num]
    rw [abs_of_pos (by norm_num : (0 : ℚ) < 2)]
    norm_num

/-- Witness for C3 on a concrete block and the concrete sample 0.5. -/
theorem C3_witness :
    (createPcmBlob [1/2, -1]).data.length = 2 * ([1/2, -1] : List ℚ).length ∧
    ((-1 : ℚ) ≤ 1/2 ∧ (1/2 : ℚ) < 1) ∧
    |(1/2 : ℚ) - (toInt16 ((1/2 : ℚ) * 32768) : ℚ) / 32768| < 1 / 32768 := by
  have main := C3_encoding [1/2, -1]
  exact ⟨main.1, ⟨by norm_num, by norm_num⟩, main.2.1 (1/2) (by norm_num) (by norm_num)⟩

end GeminiService
